import Mathlib

/-!
# Verification of the omnigo protocol-adaptation core

A shallow embedding, in Lean 4, of the parts of the omnigo repository
(github.com/YspCoder/omnigo) that its specification makes claims about:

* the unified error DTO (`dto/errors.go`),
* the relay's HTTP success/failure classification (`relay/relay.go`),
* the provider registry (`Registry` in the adapter package),
* the streaming token loop (`providerStream.Next` in `llm/llm.go`) together
  with the vendor stream-chunk parsers,
* vendor request-URL construction (`OpenAIAdaptor`, `AnthropicAdaptor`,
  `AliAdaptor`, `GoogleAdaptor`), and
* vendor chat-request message normalization.

Go strings are modelled as Lean `String`s, byte slices carrying text as
`String`s, Go maps with string keys as association lists (last write wins,
reads of missing keys return the zero value), and `interface{}` values as the
inductive `GoVal`.  Fallible Go functions returning `(T, error)` are modelled
as `Except`-valued functions.  Network transport, `context.Context`, sleeping
and the `http.Client` are outside the embedding: the relay is modelled as a
function of the HTTP response it received, and the streaming decoder as the
sequence of server-sent events it yields.
-/

namespace Omnigo

/-- Model of a Go `interface{}` value as it occurs in the `Options`/`Extra`
maps of the DTOs: a string, a boolean, or an integer.  (The source stores
arbitrary JSON-able values; only these shapes are inspected by the code under
verification, all other shapes behave like `intv`/`boolv` with respect to the
`.(string)` type assertions modelled here.) -/
inductive GoVal where
  | str (s : String)
  | boolv (b : Bool)
  | intv (n : Int)
deriving DecidableEq, Repr

/-- Model of Go `fmt.Sprint` restricted to the `GoVal` shapes. -/
def goSprint : GoVal → String
  | .str s => s
  | .boolv true => "true"
  | .boolv false => "false"
  | .intv n => toString n

/-- A Go `map[string]interface{}` modelled as an association list; the first
binding of a key wins on lookup, and updates prepend, which models Go's
last-write-wins map semantics. -/
def OptionsMap := List (String × GoVal)

/-- Lookup in an options map: `options[key]` with a missing key yielding no
value. -/
def optionsGet (options : OptionsMap) (key : String) : Option GoVal :=
  (options.find? (fun kv => kv.1 = key)).map (·.2)

/-- Model of the Go idiom `s, _ := options[key].(string)`: the string value
of `key`, or `""` when the key is absent or holds a non-string. -/
def optionsString (options : OptionsMap) (key : String) : String :=
  match optionsGet options key with
  | some (.str s) => s
  | _ => ""

/-- Model of `dto.Message`: one chat message (`dto/openai.go`).  `Content` is an
`interface{}` in Go, modelled as `GoVal`. -/
structure Message where
  role : String
  content : GoVal
deriving DecidableEq, Repr

/-- Model of `dto.ChatRequest` (`dto/openai.go`), restricted to the fields the
verified code reads: model, ordered message list, free-text prompt fallback,
stream flag, generation knobs and the open options map. -/
structure ChatRequest where
  model : String
  messages : List Message
  stream : Bool
  prompt : String
  options : OptionsMap

/-- Model of `dto.LLMError` (`dto/errors.go`): the uniform error payload
`{code, message, provider}`. -/
structure LLMError where
  code : Int
  message : String
  provider : String
deriving DecidableEq, Repr

/-- Model of `(*LLMError).Error` (`dto/errors.go` lines 13-21): the textual form of a
uniform error.  The Go receiver-nil guard has no counterpart here because the
Lean value is never a nil pointer. -/
def LLMError.errorString (e : LLMError) : String :=
  if e.provider = "" then
    e.message ++ " (code=" ++ toString e.code ++ ")"
  else
    e.message ++ " (code=" ++ toString e.code ++ ", provider=" ++ e.provider ++ ")"

/-- A Go `map[string]string` header map modelled as an association list with
first-binding-wins lookup. -/
def Headers := List (String × String)

/-- Header lookup, `config.Headers[key]`: a missing key reads as the zero
value `""`, as in Go. -/
def headerGet (h : Headers) (key : String) : String :=
  ((h.find? (fun kv => kv.1 = key)).map (·.2)).getD ""

/-- Header write, `config.Headers[key] = value`: prepending models Go's
in-place overwrite (the new binding shadows any old one). -/
def headerSet (h : Headers) (key value : String) : Headers :=
  (key, value) :: h

/-- Model of `adapter.ProviderConfig` (`adapter/interface.go`), restricted to the
fields read by the verified code paths.  The bound `http.Client` and the
timeout are transport-level state outside the embedding. -/
structure ProviderConfig where
  name : String
  apiKey : String
  model : String
  baseURL : String
  organization : String
  authHeader : String
  authKeyPrefix : String
  headers : Headers
  chatProtocol : String

/-- The mode strings of `adapter/interface.go`. -/
def ModeChat : String := "chat"

/-- Mode string for image generation. -/
def ModeImage : String := "image"

/-- Mode string for video generation. -/
def ModeVideo : String := "video"

/-- One HTTP response as the relay sees it after `io.ReadAll`: the status
code and the raw body bytes (the transport itself is outside the model). -/
structure HTTPResponse where
  status : Nat
  body : String
deriving Repr

/-- The response-classification step of `Relay.doRequest`
(`relay/relay.go` lines 262-269), shared by `Relay.Chat` and `Relay.Media`:
status 200 and 202 are success and hand the raw body onwards; any other
status produces the uniform error carrying the status code, the raw body as
message, and the configured provider name. -/
def doRequestClassify (providerName : String) (resp : HTTPResponse) :
    Except LLMError String :=
  if resp.status ≠ 200 ∧ resp.status ≠ 202 then
    .error ⟨(resp.status : Int), resp.body, providerName⟩
  else
    .ok resp.body

/-- The tail of `Relay.Chat`/`Relay.Media` after the HTTP exchange: classify
the response with `doRequestClassify`, then on success run the adaptor's
decode step (abstracted as `decode`) on the raw body.  On classification
failure the error propagates and no DTO is produced. -/
def relayCallResult {α : Type} (providerName : String) (resp : HTTPResponse)
    (decode : String → Except LLMError α) : Except LLMError α :=
  match doRequestClassify providerName resp with
  | .error e => .error e
  | .ok body => decode body

/-- Model of `adapter.ProviderSpec` (registry file): the static description of a
provider.  The Go `Type ProviderType` is a string, modelled as `ptype`; the
`AdaptorFactory func() Adaptor` field is modelled by whether a factory is
present (`hasAdaptorFactory`), since the factory's only observable effect in
`BuildAdaptor` is being called when non-nil. -/
structure ProviderSpec where
  name : String
  ptype : String
  endpoint : String
  authHeader : String
  authKeyPrefix : String
  supportsSchema : Bool
  supportsStreaming : Bool
  hasAdaptorFactory : Bool
deriving DecidableEq, Repr

/-- The adaptor value produced by `Registry.BuildAdaptor`: either the spec's
own factory output, or one of the built-in default implementations selected
by provider type. -/
inductive Adaptor where
  | fromFactory
  | openAI
  | anthropic
  | cohere
  | ollama
deriving DecidableEq, Repr

/-- Model of `adapter.Registry`: the map from provider name to `ProviderSpec`,
modelled as an association list with first-binding-wins lookup (the RWMutex
guards concurrency, which is outside this model). -/
abbrev Registry := List (String × ProviderSpec)

/-- Model of `Registry.GetProviderSpec`: read lookup by name.  The Go `(spec, ok)`
pair is modelled as an `Option`. -/
def getProviderSpec (r : Registry) (name : String) : Option ProviderSpec :=
  (r.find? (fun kv => kv.1 = name)).map (·.2)

/-- Model of `Registry.RegisterProviderSpec`: registers or overrides a spec under
`name`, first overwriting the spec's `Name` field with the registration key
(`spec.Name = name` in the source). -/
def registerProviderSpec (r : Registry) (name : String) (spec : ProviderSpec) :
    Registry :=
  (name, { spec with name := name }) :: r

/-- Model of `Registry.BuildAdaptor`: unknown names fail with "unknown provider"; a
known spec with a factory uses it; otherwise a built-in default is selected
by provider type, and types without a built-in default fail with
"requires a custom adaptor".  An `Except.error` result carries no adaptor,
matching the `nil` adaptor returned on the Go error paths. -/
def buildAdaptor (r : Registry) (name : String) :
    Except String (Adaptor × ProviderSpec) :=
  match getProviderSpec r name with
  | none => .error ("unknown provider: " ++ name)
  | some spec =>
    if spec.hasAdaptorFactory then
      .ok (.fromFactory, spec)
    else if spec.ptype = "openai" then .ok (.openAI, spec)
    else if spec.ptype = "anthropic" then .ok (.anthropic, spec)
    else if spec.ptype = "cohere" then .ok (.cohere, spec)
    else if spec.ptype = "ollama" then .ok (.ollama, spec)
    else .error ("provider " ++ name ++ " requires a custom adaptor")

/-- The stored-name/key agreement invariant of a registry: every stored
spec's `Name` field equals the key it is stored under. -/
def nameConsistent (r : Registry) : Prop :=
  ∀ kv ∈ r, kv.2.name = kv.1

/-- Model of Go `bytes.TrimSpace` / `strings.TrimSpace`: strip leading and
trailing whitespace.  (Lean's own `String.trim` is not used because its
byte-position recursion does not reduce in the kernel.) -/
def trimSpace (s : String) : String :=
  ⟨((s.data.dropWhile Char.isWhitespace).reverse.dropWhile
      Char.isWhitespace).reverse⟩

deriving instance DecidableEq for Except

/-- Model of a Go `error` value as `providerStream.Next` observes it: the
distinguished `io.EOF` sentinel (compared by identity in the source) or an
error carrying its message string (the source compares `err.Error()` against
the literal "skip token"). -/
inductive GoErr where
  | eof
  | msg (s : String)
deriving DecidableEq, Repr

/-- Modelled from the spec: one decoded server-sent event — event type and
raw data payload ("StreamEvent ... (event type, raw data bytes)").  The
`SSEDecoder` type referenced by `llm/llm.go` is not under src/. -/
structure SSEEvent where
  etype : String
  data : String
deriving DecidableEq, Repr

/-- Modelled from the spec: the terminal outcome of the event decoder once
it stops yielding events — a clean end of body (`decoder.Err() == nil`,
"body closure") or a decode-level error. -/
inductive DecoderEnd where
  | eof
  | fail (e : GoErr)
deriving DecidableEq, Repr

/-- Modelled from the spec: `llm.StreamToken` — "one derived token (text
fragment, event type, monotonically increasing index)".  The struct itself
is referenced by `llm/llm.go` but not under src/. -/
structure StreamToken where
  text : String
  etype : String
  index : Nat
deriving DecidableEq, Repr

/-- The result of one `providerStream.Next` call: an emitted token, the
end-of-stream signal (the `nil, io.EOF` return), or a surfaced error. -/
inductive NextResult where
  | token (t : StreamToken)
  | eof
  | err (e : GoErr)
deriving DecidableEq, Repr

/-- Model of the `providerStream` state (`llm/llm.go` lines 630-650): the
decoder is modelled by the events it will still yield (`events`) and its
terminal outcome (`endSt`); after the terminal outcome it yields no further
events.  The RetryStrategy — whose concrete type is not under src/ — is
modelled from the spec as a retryability judgment plus a bounded attempt
budget ("attempt counter ... upper bound"); backoff sleeping is real time
and outside the model.  `currentIndex` starts at 0 per `newProviderStream`. -/
structure StreamState where
  events : List SSEEvent
  endSt : DecoderEnd
  currentIndex : Nat
  retryable : GoErr → Bool
  budget : Nat

/-- The decoder-error branch of `providerStream.Next`: while
`ShouldRetry(err)` holds (modelled as the error being judged retryable with
attempt budget remaining) the loop sleeps and re-polls the decoder, which in
this model yields no further events, so each pass consumes one attempt;
once the strategy declines, the error is surfaced.  This function returns
the attempt budget remaining at that point; the surfaced result is always
the error itself. -/
def retryLoopBudget (retryable : GoErr → Bool) (e : GoErr) : Nat → Nat
  | 0 => 0
  | b + 1 => if retryable e then retryLoopBudget retryable e b else b + 1

/-- The event-consuming loop of `providerStream.Next` (`llm/llm.go` lines
652-694), recursing over the events the decoder will yield.  Events with
empty data are skipped; a parsed chunk emits a token carrying
`currentIndex`; a parse error equal to "skip token" continues the loop; a
parse error equal to `io.EOF` ends the stream; any other parse error
continues the loop (the `continue // Not enough data or malformed` line);
an exhausted decoder yields `io.EOF` or enters the retry loop.  The
`ctx.Done()` branch (cooperative cancellation) is outside the model. -/
def streamNextGo (parse : String → Except GoErr String)
    (retryable : GoErr → Bool) (currentIndex : Nat) :
    List SSEEvent → DecoderEnd → Nat → NextResult × (List SSEEvent × Nat)
  | [], endSt, budget =>
    match endSt with
    | .eof => (.eof, ([], budget))
    | .fail e => (.err e, ([], retryLoopBudget retryable e budget))
  | ev :: rest, endSt, budget =>
    if ev.data = "" then streamNextGo parse retryable currentIndex rest endSt budget
    else
      match parse ev.data with
      | .ok text => (.token ⟨text, ev.etype, currentIndex⟩, (rest, budget))
      | .error e =>
        if e = .msg "skip token" then
          streamNextGo parse retryable currentIndex rest endSt budget
        else if e = .eof then (.eof, (rest, budget))
        else streamNextGo parse retryable currentIndex rest endSt budget

/-- Model of `providerStream.Next`: one pull on the token stream, returning
the result and the stream state afterwards.  As in the source, the emitted
token's `Index` is read from `currentIndex` and `currentIndex` is never
advanced. -/
def streamNext (parse : String → Except GoErr String) (s : StreamState) :
    NextResult × StreamState :=
  let r := streamNextGo parse s.retryable s.currentIndex s.events s.endSt s.budget
  (r.1, { s with events := r.2.1, budget := r.2.2 })

/-- The terminal signal of a fully consumed token stream: the end-of-stream
signal (`io.EOF` from `Next`) or a surfaced error. -/
inductive StreamEndSignal where
  | endOfStream
  | failed (e : GoErr)
deriving DecidableEq, Repr

/-- The shape of the chunk JSON that `OpenAIAdaptor.ParseStreamResponse`
unmarshals: one element of `choices`, restricted to the fields the parser
reads (`delta.role`, `delta.content`, `finish_reason`). -/
structure OpenAIStreamChoice where
  deltaRole : String
  deltaContent : String
  finishReason : String
deriving DecidableEq, Repr

/-- Model of `OpenAIAdaptor.ParseStreamResponse` (OpenAI adaptor file lines
335-365), with `encoding/json.Unmarshal` abstracted as the `unmarshal`
parameter taking the raw chunk to a parse-error message or the decoded
choices list. -/
def openAIParseStreamResponse
    (unmarshal : String → Except String (List OpenAIStreamChoice))
    (chunk : String) : Except GoErr String :=
  if trimSpace chunk = "" then .error (.msg "empty chunk")
  else if trimSpace chunk = "[DONE]" then .error .eof
  else
    match unmarshal chunk with
    | .error m => .error (.msg ("malformed response: " ++ m))
    | .ok [] => .error (.msg "no choices in response")
    | .ok (c :: _) =>
      if c.finishReason ≠ "" then .error .eof
      else if c.deltaRole ≠ "" ∧ c.deltaContent = "" then .error (.msg "skip token")
      else .ok c.deltaContent

/-- The shape of the event JSON that `AnthropicAdaptor.ParseStreamResponse`
(`adapter/anthropic.go` lines 531-566) unmarshals, restricted to the fields
the parser reads. -/
structure AnthropicStreamEvent where
  etype : String
  deltaType : String
  deltaText : String
deriving DecidableEq, Repr

/-- Model of `AnthropicAdaptor.ParseStreamResponse` (`adapter/anthropic.go`
lines 531-566), with `encoding/json.Unmarshal` abstracted as `unmarshal`:
the "[DONE]" literal and the "message_stop" event type both end the stream;
empty or non-text deltas and unknown event types are skip signals. -/
def anthropicParseStreamResponse
    (unmarshal : String → Except String AnthropicStreamEvent)
    (chunk : String) : Except GoErr String :=
  if trimSpace chunk = "" then .error (.msg "empty chunk")
  else if trimSpace chunk = "[DONE]" then .error .eof
  else
    match unmarshal chunk with
    | .error m => .error (.msg ("malformed event: " ++ m))
    | .ok ev =>
      if ev.etype = "content_block_delta" then
        if ev.deltaType = "text_delta" then
          if ev.deltaText = "" then .error (.msg "skip token")
          else .ok ev.deltaText
        else .error (.msg "skip token")
      else if ev.etype = "message_stop" then .error .eof
      else .error (.msg "skip token")

/-- Concrete unmarshal function for evaluating the stream loop on explicit
inputs: "A", "B" and "GOOD" decode to single-choice content deltas, and
every other chunk fails to decode. -/
def demoUnmarshal : String → Except String (List OpenAIStreamChoice) :=
  fun chunk =>
    if chunk = "A" then .ok [⟨"", "a", ""⟩]
    else if chunk = "B" then .ok [⟨"", "b", ""⟩]
    else if chunk = "GOOD" then .ok [⟨"", "x", ""⟩]
    else .error "unexpected end of JSON input"

/-- Stream state with two well-formed content chunks "A" and "B" and a
clean end of body, retry strategy retrying nothing. -/
def twoChunkStream : StreamState :=
  ⟨[⟨"m", "A"⟩, ⟨"m", "B"⟩], .eof, 0, fun _ => false, 0⟩

/-- Stream state whose first chunk fails to decode and whose second is a
well-formed content chunk, with a retry strategy judging nothing
retryable. -/
def malformedThenGoodStream : StreamState :=
  ⟨[⟨"message", "BAD"⟩, ⟨"message", "GOOD"⟩], .eof, 0, fun _ => false, 3⟩

/-- Stream state holding one content chunk followed by the literal "[DONE]"
completion sentinel. -/
def doneTerminatedStream : StreamState :=
  ⟨[⟨"m", "A"⟩, ⟨"m", "[DONE]"⟩], .eof, 0, fun _ => false, 0⟩

/-- Stream state holding a single chunk that fails to decode. -/
def malformedSingleStream : StreamState :=
  ⟨[⟨"m", "BAD"⟩], .eof, 0, fun _ => false, 0⟩

/-- Model of `normalizeMessages` (OpenAI adaptor file lines 159-174): with
an empty message list and a non-empty free-text prompt, a single user
message holding the prompt is synthesized; a non-empty `system_prompt`
option is then prepended as a system message. -/
def normalizeMessages (request : ChatRequest) : List Message :=
  let messages :=
    if request.messages = [] ∧ request.prompt ≠ "" then
      [⟨"user", .str request.prompt⟩]
    else request.messages
  let systemPrompt := optionsString request.options "system_prompt"
  if systemPrompt ≠ "" then
    ⟨"system", .str systemPrompt⟩ :: messages
  else messages

/-- The DashScope chat payload built by `AliAdaptor.ConvertChatRequest`
(`adapter/helpers.go` lines 491-508): model, the `input.messages` list
(taken from the request as-is), and the `incremental_output` parameter that
is set exactly when the request streams. -/
structure AliChatPayload where
  model : String
  inputMessages : List Message
  incrementalOutput : Bool
deriving Repr

/-- Model of `AliAdaptor.ConvertChatRequest` (`adapter/helpers.go` lines
491-508) at the payload level (the final `json.Marshal` is the identity on
this shape). -/
def aliConvertChatRequest (request : ChatRequest) : AliChatPayload :=
  { model := request.model
    inputMessages := request.messages
    incrementalOutput := request.stream }

/-- One entry of the `contents` array of the Gemini chat payload: role and
the text of its single part. -/
structure GeminiContent where
  role : String
  text : String
deriving DecidableEq, Repr

/-- The `contents` list built by `GoogleAdaptor.ConvertChatRequest` (google
adaptor file lines 316-333): built from `request.Messages` only — the
"assistant" role is renamed "model", "system" messages are skipped, and
each message's content is rendered with `fmt.Sprint` into one text part.
The free-text prompt is never consulted. -/
def googleChatContents (request : ChatRequest) : List GeminiContent :=
  request.messages.filterMap (fun m =>
    let role := if m.role = "assistant" then "model" else m.role
    if role = "system" then none
    else some ⟨role, goSprint m.content⟩)

/-- Chat request carrying only a free-text prompt: empty message list,
non-empty prompt, no options. -/
def promptOnlyRequest : ChatRequest :=
  ⟨"m", [], false, "hi", []⟩

/-- Model of Go `strings.TrimRight(s, "/")`: strip trailing slashes. -/
def trimRightSlashes (s : String) : String :=
  ⟨(s.data.reverse.dropWhile (fun c => c = '/')).reverse⟩

/-- Model of the `GoogleAdaptor` struct (google adaptor file): its only
field is a fallback base URL. -/
structure GoogleAdaptor where
  baseURL : String

/-- The base-URL resolution chain shared by the Google adaptor's methods:
the config's base URL, else the adaptor's fallback, else the documented
default, each right-trimmed of slashes. -/
def googleResolveBase (a : GoogleAdaptor) (cfg : ProviderConfig) : String :=
  let base := trimRightSlashes cfg.baseURL
  let base := if base = "" then trimRightSlashes a.baseURL else base
  if base = "" then "https://generativelanguage.googleapis.com/v1beta" else base

/-- Model of `GoogleAdaptor.GetRequestURL` (google adaptor file lines
282-306): action `generateContent`, switched to `streamGenerateContent` for
chat mode when the config's "X-Stream" header reads "true", and to
`predict` for image/video; the URL is
`base/models/{model}:{action}` with `?key={api_key}` appended when the API
key is non-empty. -/
def googleGetRequestURL (a : GoogleAdaptor) (mode : String)
    (cfg : ProviderConfig) : String :=
  let base := googleResolveBase a cfg
  let action :=
    if mode = ModeChat ∧ headerGet cfg.headers "X-Stream" = "true" then
      "streamGenerateContent"
    else "generateContent"
  let action := if mode = ModeImage ∨ mode = ModeVideo then "predict" else action
  let url := base ++ "/models/" ++ cfg.model ++ ":" ++ action
  if cfg.apiKey ≠ "" then url ++ "?key=" ++ cfg.apiKey else url

/-- Model of the configuration effect of `GoogleAdaptor.PrepareStreamRequest`
(google adaptor file lines 533-540): the caller-supplied config's header map
is written in place with `"X-Stream" = "true"` (a nil map being allocated
first, which the empty association list models), before delegating the body
to `ConvertChatRequest`, which does not touch the config.  The in-place
mutation is modelled by returning the updated configuration. -/
def googlePrepareStreamConfig (cfg : ProviderConfig) : ProviderConfig :=
  { cfg with headers := headerSet cfg.headers "X-Stream" "true" }

/-- Model of Go `strings.HasSuffix`, via the character lists. -/
def strEndsWith (s suffix : String) : Bool :=
  suffix.data.isSuffixOf s.data

/-- Model of Go `strings.TrimSuffix`: drop the suffix when present,
otherwise return the string unchanged. -/
def trimSuffixStr (s suffix : String) : String :=
  if strEndsWith s suffix then
    ⟨s.data.take (s.data.length - suffix.data.length)⟩
  else s

/-- Character predicate used by `parseURL`: true away from the fragment
delimiter '#'. -/
def notHashChar (c : Char) : Bool :=
  c ≠ '#'

/-- Character predicate used by `parseURL`: a character still inside the
authority (host) section, which runs to the first '/' or '?' (the fragment
having been split off already). -/
def hostChar (c : Char) : Bool :=
  c ≠ '/' ∧ c ≠ '?'

/-- Character predicate used by `parseURL`: true away from the query
delimiter '?'. -/
def notQueryChar (c : Char) : Bool :=
  c ≠ '?'

/-- Components of a parsed absolute URL, as the URL-building code reads and
reassembles them: scheme, host, path, raw query (without its '?') and
fragment (without its '#'). -/
structure URLParts where
  scheme : String
  host : String
  path : String
  query : String
  fragment : String
deriving DecidableEq, Repr

/-- Modelled from the Go standard library `net/url.Parse` on absolute
lowercase-scheme http(s) URLs: the fragment is split off at the first '#',
the host runs from after "scheme://" to the first '/' or '?' and must be
non-empty, the path runs to the first '?', and what follows the '?' is the
raw query — matching how `url.Parse` fills `Path`, `RawQuery` and
`Fragment`.  Percent escapes, a bare trailing '?' (`ForceQuery`) and
case-variant schemes are outside the modelled class; any string not
starting with the lowercase scheme prefix is modelled as parsing with an
empty scheme/host, which the callers treat exactly like a parse failure
(they fall back to plain string manipulation). -/
def parseURL (s : String) : Option URLParts :=
  let noFrag := s.data.takeWhile notHashChar
  let frag := (s.data.dropWhile notHashChar).drop 1
  let fromRest (scheme : String) (rest : List Char) : Option URLParts :=
    let host := rest.takeWhile hostChar
    let pathq := rest.dropWhile hostChar
    let path := pathq.takeWhile notQueryChar
    let query := (pathq.dropWhile notQueryChar).drop 1
    if host.isEmpty then none
    else some ⟨scheme, ⟨host⟩, ⟨path⟩, ⟨query⟩, ⟨frag⟩⟩
  if "https://".data.isPrefixOf noFrag then fromRest "https" (noFrag.drop 8)
  else if "http://".data.isPrefixOf noFrag then fromRest "http" (noFrag.drop 7)
  else none

/-- Model of `(*url.URL).String()` for the URL class handled by
`parseURL`: scheme, "://", host and path, then "?" plus the raw query when
that is non-empty, then "#" plus the fragment when that is non-empty. -/
def urlString (p : URLParts) : String :=
  let s := p.scheme ++ "://" ++ p.host ++ p.path
  let s := if p.query ≠ "" then s ++ "?" ++ p.query else s
  if p.fragment ≠ "" then s ++ "#" ++ p.fragment else s

/-- Model of `openAISuffix` (OpenAI adaptor file lines 398-409): the
mode-specific path suffix, or an error for unsupported modes. -/
def openAISuffix (mode : String) : Except String String :=
  if mode = ModeChat then .ok "/chat/completions"
  else if mode = ModeImage then .ok "/images/generations"
  else if mode = ModeVideo then .ok "/videos/generations"
  else .error ("unsupported mode: " ++ mode)

/-- Model of `trimOpenAISuffix` (OpenAI adaptor file lines 411-419): strip
whichever known mode suffix the path ends with, trying them in the source's
order. -/
def trimOpenAISuffix (path : String) : String :=
  if strEndsWith path "/chat/completions" then
    trimSuffixStr path "/chat/completions"
  else if strEndsWith path "/images/generations" then
    trimSuffixStr path "/images/generations"
  else if strEndsWith path "/videos/generations" then
    trimSuffixStr path "/videos/generations"
  else path

/-- Model of `buildOpenAIRequestURLFallback` (OpenAI adaptor file lines
389-396): the plain-string path taken when the base does not parse as an
absolute URL. -/
def buildOpenAIRequestURLFallback (base suffix : String) : String :=
  let base := trimRightSlashes base
  if strEndsWith base suffix then base
  else trimRightSlashes (trimOpenAISuffix base) ++ suffix

/-- Model of `buildOpenAIRequestURL` (OpenAI adaptor file lines 367-387):
resolve the mode suffix; on a parsed absolute URL, keep the URL unchanged
when its right-trimmed path already ends in the suffix, otherwise strip any
known mode suffix and append the right one; unparseable bases use the
string fallback. -/
def buildOpenAIRequestURL (base mode : String) : Except String String :=
  match openAISuffix mode with
  | .error e => .error e
  | .ok suffix =>
    match parseURL base with
    | none => .ok (buildOpenAIRequestURLFallback base suffix)
    | some parsed =>
      let path := trimRightSlashes parsed.path
      if strEndsWith path suffix then .ok (urlString parsed)
      else
        .ok (urlString
          { parsed with
            path := trimRightSlashes (trimOpenAISuffix path) ++ suffix })

/-- Model of the `OpenAIAdaptor` struct: its only field is a fallback base
URL. -/
structure OpenAIAdaptor where
  baseURL : String

/-- Model of `OpenAIAdaptor.GetRequestURL` (OpenAI adaptor file lines
77-87): resolve the base (config, adaptor fallback, documented default) and
build the mode URL. -/
def openAIGetRequestURL (a : OpenAIAdaptor) (mode : String)
    (cfg : ProviderConfig) : Except String String :=
  let base := trimRightSlashes cfg.baseURL
  let base := if base = "" then trimRightSlashes a.baseURL else base
  let base := if base = "" then "https://api.openai.com/v1" else base
  buildOpenAIRequestURL base mode

/-- Model of the `AnthropicAdaptor` struct: its only field is a fallback
base URL. -/
structure AnthropicAdaptor where
  baseURL : String

/-- Model of `AnthropicAdaptor.GetRequestURL` (`adapter/anthropic.go` lines
61-90): chat mode only; on a parsed absolute URL, append "/messages" unless
the right-trimmed path already ends in it; otherwise plain string handling
with the same suffix check. -/
def anthropicGetRequestURL (a : AnthropicAdaptor) (mode : String)
    (cfg : ProviderConfig) : Except String String :=
  if mode ≠ ModeChat then
    .error ("unsupported mode for anthropic: " ++ mode)
  else
    let base := trimRightSlashes cfg.baseURL
    let base := if base = "" then trimRightSlashes a.baseURL else base
    let base := if base = "" then "https://api.anthropic.com/v1" else base
    match parseURL base with
    | some parsed =>
      let path := trimRightSlashes parsed.path
      if ¬ strEndsWith path "/messages" then
        .ok (urlString
          { parsed with path := trimSuffixStr path "/messages" ++ "/messages" })
      else .ok (urlString parsed)
    | none =>
      let base := trimRightSlashes base
      if strEndsWith base "/messages" then .ok base
      else .ok (base ++ "/messages")

/-- Model of the `AliAdaptor` struct: its only field is a fallback base
URL. -/
structure AliAdaptor where
  baseURL : String

/-- Model of `aliVideoEndpointForModel` (`adapter/helpers.go` lines
392-412): the image2video endpoint for the two mapped models, otherwise the
video-generation endpoint. -/
def aliVideoEndpointForModel (model : String) : String :=
  if model = "wan2.2-kf2v-flash" ∨ model = "wanx2.1-kf2v-plus" then
    "/api/v1/services/aigc/image2video/video-synthesis"
  else
    "/api/v1/services/aigc/video-generation/video-synthesis"

/-- Model of `AliAdaptor.GetRequestURL` (`adapter/helpers.go` lines
365-384): resolve the base (config, adaptor fallback, documented default)
and append the fixed per-mode path — with no check for the suffix already
being present. -/
def aliGetRequestURL (a : AliAdaptor) (mode : String)
    (cfg : ProviderConfig) : Except String String :=
  let base := trimRightSlashes cfg.baseURL
  let base := if base = "" then trimRightSlashes a.baseURL else base
  let base := if base = "" then "https://dashscope.aliyuncs.com" else base
  if mode = ModeChat then
    .ok (base ++ "/compatible-mode/v1/chat/completions")
  else if mode = ModeVideo then
    .ok (base ++ aliVideoEndpointForModel cfg.model)
  else if mode = ModeImage then
    .ok (base ++ "/api/v1/services/aigc/multimodal-generation/generation")
  else .error ("unsupported mode: " ++ mode)

/-- Provider config whose base URL already ends in the DashScope chat path
suffix. -/
def aliDupConfig : ProviderConfig :=
  ⟨"ali", "", "", "https://dashscope.aliyuncs.com/compatible-mode/v1/chat/completions",
    "", "", "", [], ""⟩

/-- Consuming a token stream to its end by repeated `providerStream.Next`
calls: collects the emitted tokens and the terminal signal of the last
`Next` call (`io.EOF` or a surfaced error). -/
def runStream (parse : String → Except GoErr String) (s : StreamState) :
    List StreamToken × StreamEndSignal :=
  match h : streamNext parse s with
  | (.token t, s') =>
    let tail := runStream parse s'
    (t :: tail.1, tail.2)
  | (.eof, _) => ([], .endOfStream)
  | (.err e, _) => ([], .failed e)
termination_by s.events.length
decreasing_by
  have key : ∀ (evs : List SSEEvent) (endSt : DecoderEnd) (budget : Nat),
      ∀ t rest b, streamNextGo parse s.retryable s.currentIndex evs endSt budget =
        (.token t, (rest, b)) → rest.length < evs.length := by
    intro evs
    induction evs with
    | nil =>
      intro endSt budget t rest b hgo
      cases endSt <;> simp [streamNextGo] at hgo
    | cons ev evs ih =>
      intro endSt budget t rest b hgo
      simp only [streamNextGo] at hgo
      by_cases hemp : ev.data = ""
      · simp only [hemp, if_pos rfl] at hgo
        exact (ih endSt budget t rest b hgo).trans (Nat.lt_succ_self _)
      · simp only [if_neg hemp] at hgo
        cases hp : parse ev.data with
        | ok text =>
          rw [hp] at hgo
          simp only [Prod.mk.injEq] at hgo
          simp [← hgo.2.1, Nat.lt_succ_self]
        | error e =>
          rw [hp] at hgo
          by_cases hskip : e = .msg "skip token"
          · simp only [hskip, if_pos rfl] at hgo
            exact (ih endSt budget t rest b hgo).trans (Nat.lt_succ_self _)
          · simp only [if_neg hskip] at hgo
            by_cases heof : e = .eof
            · simp [heof] at hgo
            · simp only [if_neg heof] at hgo
              exact (ih endSt budget t rest b hgo).trans (Nat.lt_succ_self _)
  have hs' : s' = { s with
      events := (streamNextGo parse s.retryable s.currentIndex s.events s.endSt s.budget).2.1,
      budget := (streamNextGo parse s.retryable s.currentIndex s.events s.endSt s.budget).2.2 } := by
    have := congrArg Prod.snd h
    simpa [streamNext] using this.symm
  have hfst : (streamNextGo parse s.retryable s.currentIndex s.events s.endSt s.budget).1 =
      .token t := by
    have := congrArg Prod.fst h
    simpa [streamNext] using this
  subst hs'
  exact key s.events s.endSt s.budget t _ _ (by rw [← hfst])

end Omnigo

namespace Omnigo

/-- C1: For every Relay chat or media call, an HTTP response with status 200
or 202 is classified as success (the raw body is handed to the adaptor's
decode step), and any other status makes the call return a uniform error
whose code is the HTTP status, whose message is the raw response body, and
whose provider is the configured provider name — no DTO is returned. -/
theorem relay_success_failure_classification
    {α : Type} (providerName : String) (resp : HTTPResponse)
    (decode : String → Except LLMError α) :
    (resp.status = 200 ∨ resp.status = 202 →
      relayCallResult providerName resp decode = decode resp.body) ∧
    (resp.status ≠ 200 → resp.status ≠ 202 →
      relayCallResult providerName resp decode =
        .error ⟨(resp.status : Int), resp.body, providerName⟩) := by
  constructor
  · intro h
    rcases h with h | h <;>
      simp [relayCallResult, doRequestClassify, h]
  · intro h200 h202
    simp [relayCallResult, doRequestClassify, h200, h202]

/-- Witness for C1: concrete instances of both branches — status 200 is
success, status 404 becomes the uniform error with code 404, the raw body as
message and the provider name. -/
theorem relay_success_failure_classification_witness :
    relayCallResult (α := String) "openai" ⟨200, "okbody"⟩ (fun b => .ok b) =
      .ok "okbody" ∧
    relayCallResult (α := String) "openai" ⟨404, "not found"⟩ (fun b => .ok b) =
      .error ⟨404, "not found", "openai"⟩ := by
  constructor
  · exact ((relay_success_failure_classification "openai" ⟨200, "okbody"⟩
      (fun b => .ok b)).1 (Or.inl rfl)).trans rfl
  · exact (relay_success_failure_classification "openai" ⟨404, "not found"⟩
      (fun b => .ok b)).2 (by decide) (by decide)

/-- C7: the textual form of a uniform error is
"message (code=N, provider=P)" when the provider is non-empty, and
"message (code=N)" — the provider clause omitted — when it is empty. -/
theorem llmerror_textual_form (e : LLMError) :
    (e.provider ≠ "" →
      e.errorString =
        e.message ++ " (code=" ++ toString e.code ++ ", provider=" ++
          e.provider ++ ")") ∧
    (e.provider = "" →
      e.errorString = e.message ++ " (code=" ++ toString e.code ++ ")") := by
  constructor
  · intro h
    simp [LLMError.errorString, h]
  · intro h
    simp [LLMError.errorString, h]

/-- Witness for C7: both branches at concrete errors. -/
theorem llmerror_textual_form_witness :
    LLMError.errorString ⟨429, "rate limited", "openai"⟩ =
      "rate limited (code=429, provider=openai)" ∧
    LLMError.errorString ⟨500, "boom", ""⟩ = "boom (code=500)" := by
  constructor
  · exact ((llmerror_textual_form ⟨429, "rate limited", "openai"⟩).1
      (by decide)).trans (by decide)
  · exact ((llmerror_textual_form ⟨500, "boom", ""⟩).2 rfl).trans (by decide)

/-- C8: building an adaptor for an unknown provider name fails with the
explicit "unknown provider" error, and building one for a known provider
whose spec has no adaptor factory and whose provider type has none of the
built-in default implementations fails with the explicit "requires a custom
adaptor" error; in both cases the `Except.error` result carries no adaptor
instance. -/
theorem buildAdaptor_failure_modes (r : Registry) (n : String) :
    (getProviderSpec r n = none →
      buildAdaptor r n = .error ("unknown provider: " ++ n)) ∧
    (∀ spec, getProviderSpec r n = some spec →
      spec.hasAdaptorFactory = false →
      spec.ptype ≠ "openai" → spec.ptype ≠ "anthropic" →
      spec.ptype ≠ "cohere" → spec.ptype ≠ "ollama" →
      buildAdaptor r n = .error ("provider " ++ n ++ " requires a custom adaptor")) := by
  constructor
  · intro h
    simp [buildAdaptor, h]
  · intro spec hspec hfac h1 h2 h3 h4
    simp [buildAdaptor, hspec, hfac, h1, h2, h3, h4]

/-- Witness for C8: an empty registry rejects name "nope" as unknown, and a
registry holding a factory-less spec of custom type rejects it as requiring
a custom adaptor. -/
theorem buildAdaptor_failure_modes_witness :
    buildAdaptor [] "nope" = .error ("unknown provider: " ++ "nope") ∧
    buildAdaptor
        [("mine", ⟨"mine", "custom", "", "", "", false, false, false⟩)] "mine" =
      .error ("provider " ++ "mine" ++ " requires a custom adaptor") := by
  constructor
  · exact (buildAdaptor_failure_modes [] "nope").1 rfl
  · exact (buildAdaptor_failure_modes
      [("mine", ⟨"mine", "custom", "", "", "", false, false, false⟩)] "mine").2
      ⟨"mine", "custom", "", "", "", false, false, false⟩ rfl rfl
      (by decide) (by decide) (by decide) (by decide)

/-- C10: after `RegisterProviderSpec(n, s)` a lookup of `n` returns `s` with
its `Name` field overwritten by the registration key `n`, whatever `Name`
value `s` carried — so the stored-name/key agreement is an invariant that
every registration preserves. -/
theorem register_overwrites_spec_name (r : Registry) (n : String)
    (s : ProviderSpec) (hr : nameConsistent r) :
    getProviderSpec (registerProviderSpec r n s) n = some { s with name := n } ∧
    (getProviderSpec (registerProviderSpec r n s) n).map ProviderSpec.name =
      some n ∧
    nameConsistent (registerProviderSpec r n s) := by
  refine ⟨?_, ?_, ?_⟩
  · simp [getProviderSpec, registerProviderSpec, List.find?]
  · simp [getProviderSpec, registerProviderSpec, List.find?]
  · show ∀ kv ∈ registerProviderSpec r n s, kv.2.name = kv.1
    intro kv hkv
    rcases List.mem_cons.mp hkv with h | h
    · subst h
      rfl
    · exact hr kv h

/-- Witness for C10: registering a spec whose own `Name` is "other" under
the key "mykey" stores and returns it with `Name = "mykey"`. -/
theorem register_overwrites_spec_name_witness :
    getProviderSpec
        (registerProviderSpec []
          "mykey" ⟨"other", "openai", "", "", "", true, true, false⟩)
        "mykey" =
      some ⟨"mykey", "openai", "", "", "", true, true, false⟩ := by
  exact (register_overwrites_spec_name []
    "mykey" ⟨"other", "openai", "", "", "", true, true, false⟩
    (by show ∀ kv ∈ ([] : Registry), kv.2.name = kv.1
        intro kv hkv; cases hkv)).1

/-- Helper: when `ShouldRetry` judges an error non-retryable, the retry loop
exits at once and the attempt budget is untouched. -/
theorem retryLoopBudget_of_not_retryable (retryable : GoErr → Bool)
    (e : GoErr) (hne : retryable e = false) (b : Nat) :
    retryLoopBudget retryable e b = b := by
  cases b <;> simp [retryLoopBudget, hne]

/-- Helper: a `Next` call that emits a token strictly consumes decoder
events. -/
theorem streamNextGo_token_lt (parse : String → Except GoErr String)
    (retryable : GoErr → Bool) (idx : Nat) :
    ∀ (evs : List SSEEvent) (endSt : DecoderEnd) (budget : Nat)
      (t : StreamToken) (rest : List SSEEvent) (b : Nat),
      streamNextGo parse retryable idx evs endSt budget = (.token t, (rest, b)) →
      rest.length < evs.length := by
  intro evs
  induction evs with
  | nil =>
    intro endSt budget t rest b hgo
    cases endSt <;> simp [streamNextGo] at hgo
  | cons ev evs ih =>
    intro endSt budget t rest b hgo
    simp only [streamNextGo] at hgo
    by_cases hemp : ev.data = ""
    · simp only [hemp, if_pos rfl] at hgo
      exact (ih endSt budget t rest b hgo).trans (Nat.lt_succ_self _)
    · simp only [if_neg hemp] at hgo
      cases hp : parse ev.data with
      | ok text =>
        rw [hp] at hgo
        simp only [Prod.mk.injEq] at hgo
        simp [← hgo.2.1, Nat.lt_succ_self]
      | error e =>
        rw [hp] at hgo
        by_cases hskip : e = .msg "skip token"
        · simp only [hskip, if_pos rfl] at hgo
          exact (ih endSt budget t rest b hgo).trans (Nat.lt_succ_self _)
        · simp only [if_neg hskip] at hgo
          by_cases heof : e = .eof
          · simp [heof] at hgo
          · simp only [if_neg heof] at hgo
            exact (ih endSt budget t rest b hgo).trans (Nat.lt_succ_self _)

/-- Helper: when the decoder's final event is a non-empty completion
sentinel (its payload parses to the end-of-stream signal), one `Next` pass
either signals end of stream or emits a token while the remaining events
still end with the sentinel. -/
theorem streamNextGo_last_sentinel (parse : String → Except GoErr String)
    (retryable : GoErr → Bool) (idx : Nat) (ev : SSEEvent)
    (hne : ev.data ≠ "") (hsent : parse ev.data = .error .eof) :
    ∀ (pre : List SSEEvent) (endSt : DecoderEnd) (budget : Nat),
      (streamNextGo parse retryable idx (pre ++ [ev]) endSt budget).1 = .eof ∨
      ∃ t p2 b, streamNextGo parse retryable idx (pre ++ [ev]) endSt budget =
        (.token t, (p2 ++ [ev], b)) := by
  intro pre
  induction pre with
  | nil =>
    intro endSt budget
    left
    simp [streamNextGo, hne, hsent]
  | cons e' pre ih =>
    intro endSt budget
    simp only [List.cons_append, streamNextGo]
    by_cases hemp : e'.data = ""
    · simp only [hemp, if_pos rfl]
      exact ih endSt budget
    · simp only [if_neg hemp]
      cases hp : parse e'.data with
      | ok text =>
        right
        exact ⟨⟨text, e'.etype, idx⟩, pre, budget, rfl⟩
      | error e =>
        by_cases hskip : e = .msg "skip token"
        · simp only [hskip, if_pos rfl]
          exact ih endSt budget
        · simp only [if_neg hskip]
          by_cases heof : e = .eof
          · left
            simp [heof]
          · simp only [if_neg heof]
            exact ih endSt budget

/-- Helper: consuming a stream whose decoder events end with a non-empty
completion-sentinel event finishes with the end-of-stream signal, by strong
induction on the number of events before the sentinel. -/
theorem runStream_sentinel_aux (parse : String → Except GoErr String)
    (ev : SSEEvent) (hne : ev.data ≠ "") (hsent : parse ev.data = .error .eof) :
    ∀ (n : Nat) (s : StreamState) (pre : List SSEEvent),
      pre.length ≤ n → s.events = pre ++ [ev] →
      (runStream parse s).2 = .endOfStream := by
  intro n
  induction n with
  | zero =>
    intro s pre hlen heq
    have hpre : pre = [] := List.length_eq_zero.mp (Nat.le_zero.mp hlen)
    subst hpre
    rw [runStream]
    split
    · next t s' h =>
      exfalso
      have hfst : (streamNextGo parse s.retryable s.currentIndex s.events
          s.endSt s.budget).1 = .token t := congrArg Prod.fst h
      rcases streamNextGo_last_sentinel parse s.retryable s.currentIndex ev
          hne hsent [] s.endSt s.budget with hl | ⟨t', p2, b, hr⟩
      · rw [heq] at hfst; rw [hfst] at hl; cases hl
      · rw [heq] at hfst
        have := streamNextGo_token_lt parse s.retryable s.currentIndex
          ([] ++ [ev]) s.endSt s.budget t' (p2 ++ [ev]) b hr
        simp at this
    · rfl
    · next e s₂ h =>
      exfalso
      have hfst : (streamNextGo parse s.retryable s.currentIndex s.events
          s.endSt s.budget).1 = .err e := congrArg Prod.fst h
      rcases streamNextGo_last_sentinel parse s.retryable s.currentIndex ev
          hne hsent [] s.endSt s.budget with hl | ⟨t', p2, b, hr⟩
      · rw [heq] at hfst; rw [hfst] at hl; cases hl
      · rw [heq] at hfst; rw [hr] at hfst; cases hfst
  | succ m ih =>
    intro s pre hlen heq
    rw [runStream]
    split
    · next t s' h =>
      have hfst : (streamNextGo parse s.retryable s.currentIndex s.events
          s.endSt s.budget).1 = .token t := congrArg Prod.fst h
      have hsnd : s' = { s with
          events := (streamNextGo parse s.retryable s.currentIndex s.events
            s.endSt s.budget).2.1,
          budget := (streamNextGo parse s.retryable s.currentIndex s.events
            s.endSt s.budget).2.2 } := (congrArg Prod.snd h).symm
      rcases streamNextGo_last_sentinel parse s.retryable s.currentIndex ev
          hne hsent pre s.endSt s.budget with hl | ⟨t', p2, b, hr⟩
      · rw [heq] at hfst; rw [hfst] at hl; cases hl
      · rw [heq] at hfst hsnd
        have hlt := streamNextGo_token_lt parse s.retryable s.currentIndex
          (pre ++ [ev]) s.endSt s.budget t' (p2 ++ [ev]) b hr
        simp only [List.length_append, List.length_cons, List.length_nil] at hlt
        have hp2 : p2.length ≤ m := by omega
        have hs'ev : s'.events = p2 ++ [ev] := by
          rw [hsnd, hr]
        simpa using ih s' p2 hp2 hs'ev
    · rfl
    · next e s₂ h =>
      exfalso
      have hfst : (streamNextGo parse s.retryable s.currentIndex s.events
          s.endSt s.budget).1 = .err e := congrArg Prod.fst h
      rcases streamNextGo_last_sentinel parse s.retryable s.currentIndex ev
          hne hsent pre s.endSt s.budget with hl | ⟨t', p2, b, hr⟩
      · rw [heq] at hfst; rw [hfst] at hl; cases hl
      · rw [heq] at hfst; rw [hr] at hfst; cases hfst

/-- C2: the source never advances `currentIndex`, so on a stream of two
well-formed content chunks two successive `Next` calls both emit tokens with
`Index = 0` — the second token's index is not strictly greater than the
first's, and the index sequence is constant rather than monotonically
increasing. -/
theorem stream_token_index_never_advances :
    (streamNext (openAIParseStreamResponse demoUnmarshal) twoChunkStream).1 =
      .token ⟨"a", "m", 0⟩ ∧
    (streamNext (openAIParseStreamResponse demoUnmarshal)
        (streamNext (openAIParseStreamResponse demoUnmarshal) twoChunkStream).2).1 =
      .token ⟨"b", "m", 0⟩ := by
  constructor <;> decide

/-- Counterexample to C3: a malformed chunk ("BAD" fails to decode, giving a
parse error that is neither the skip signal nor the end sentinel) under a
retry strategy that judges nothing retryable does not terminate the stream:
`Next` silently skips it and returns the token decoded from the following
chunk. -/
theorem malformed_parse_error_swallowed_cex :
    (streamNext (openAIParseStreamResponse demoUnmarshal)
        malformedThenGoodStream).1 = .token ⟨"x", "message", 0⟩ := by
  decide

/-- C3 (amended): in the streaming token loop the skip-this-chunk signal is
consumed and the loop continues; every other chunk-parse error except the
end-of-stream sentinel — malformed chunks included, and without consulting
the retry strategy — is likewise silently consumed and the loop continues;
the end-of-stream sentinel terminates the stream cleanly; and only
decoder-level errors consult the retry strategy, a decoder error judged
non-retryable terminating the stream and being returned from `Next`. -/
theorem stream_error_surfacing_amended :
    (∀ (parse : String → Except GoErr String) (s : StreamState)
        (ev : SSEEvent) (rest : List SSEEvent),
      s.events = ev :: rest → ev.data ≠ "" →
      parse ev.data = .error (.msg "skip token") →
      streamNext parse s = streamNext parse { s with events := rest }) ∧
    (∀ (parse : String → Except GoErr String) (s : StreamState)
        (ev : SSEEvent) (rest : List SSEEvent) (e : GoErr),
      s.events = ev :: rest → ev.data ≠ "" → parse ev.data = .error e →
      e ≠ .msg "skip token" → e ≠ .eof →
      streamNext parse s = streamNext parse { s with events := rest }) ∧
    (∀ (parse : String → Except GoErr String) (s : StreamState)
        (ev : SSEEvent) (rest : List SSEEvent),
      s.events = ev :: rest → ev.data ≠ "" → parse ev.data = .error .eof →
      streamNext parse s = (.eof, { s with events := rest })) ∧
    (∀ (parse : String → Except GoErr String) (s : StreamState) (e : GoErr),
      s.events = [] → s.endSt = .fail e → s.retryable e = false →
      streamNext parse s = (.err e, s)) := by
  refine ⟨?_, ?_, ?_, ?_⟩
  · intro parse s ev rest heq hne hpe
    obtain ⟨evs, endst, ci, rb, bud⟩ := s
    simp only at heq
    subst heq
    simp [streamNext, streamNextGo, hne, hpe]
  · intro parse s ev rest e heq hne hpe hskip heof
    obtain ⟨evs, endst, ci, rb, bud⟩ := s
    simp only at heq
    subst heq
    simp [streamNext, streamNextGo, hne, hpe, hskip, heof]
  · intro parse s ev rest heq hne hpe
    obtain ⟨evs, endst, ci, rb, bud⟩ := s
    simp only at heq
    subst heq
    simp [streamNext, streamNextGo, hne, hpe]
  · intro parse s e heq hend hret
    obtain ⟨evs, endst, ci, rb, bud⟩ := s
    simp only at heq hend hret
    subst heq
    subst hend
    simp [streamNext, streamNextGo, retryLoopBudget_of_not_retryable rb e hret]

/-- Witness for C3 (amended): the malformed chunk "BAD" produces the
malformed-response parse error, and `Next` on a stream holding only that
chunk behaves exactly as on the stream with the chunk removed. -/
theorem stream_error_surfacing_amended_witness :
    openAIParseStreamResponse demoUnmarshal "BAD" =
      .error (.msg "malformed response: unexpected end of JSON input") ∧
    streamNext (openAIParseStreamResponse demoUnmarshal) malformedSingleStream =
      streamNext (openAIParseStreamResponse demoUnmarshal)
        { malformedSingleStream with events := [] } := by
  refine ⟨by decide, ?_⟩
  exact stream_error_surfacing_amended.2.1
    (openAIParseStreamResponse demoUnmarshal) malformedSingleStream
    ⟨"m", "BAD"⟩ []
    (.msg "malformed response: unexpected end of JSON input")
    rfl (by decide) (by decide) (by decide) (by decide)

/-- C6: consuming a stream whose events end with a non-empty completion
sentinel — via repeated `Next` calls — yields a finite token list whose
final `Next` outcome is the end-of-stream signal, never an error; and the
vendor sentinel forms (the literal "[DONE]" payload, a non-empty
finish-reason field, and the "message_stop" terminating event type) all map
to the same end-of-stream signal `io.EOF`. -/
theorem stream_completion_sentinel_eof :
    (∀ (parse : String → Except GoErr String) (s : StreamState)
        (pre : List SSEEvent) (ev : SSEEvent),
      s.events = pre ++ [ev] → ev.data ≠ "" → parse ev.data = .error .eof →
      (runStream parse s).2 = .endOfStream) ∧
    (∀ (u : String → Except String (List OpenAIStreamChoice)) (chunk : String),
      trimSpace chunk = "[DONE]" → openAIParseStreamResponse u chunk = .error .eof) ∧
    (∀ (u : String → Except String (List OpenAIStreamChoice)) (chunk : String)
        (c : OpenAIStreamChoice) (cs : List OpenAIStreamChoice),
      trimSpace chunk ≠ "" → trimSpace chunk ≠ "[DONE]" → u chunk = .ok (c :: cs) →
      c.finishReason ≠ "" → openAIParseStreamResponse u chunk = .error .eof) ∧
    (∀ (u : String → Except String AnthropicStreamEvent) (chunk : String)
        (ev : AnthropicStreamEvent),
      trimSpace chunk ≠ "" → trimSpace chunk ≠ "[DONE]" → u chunk = .ok ev →
      ev.etype = "message_stop" → anthropicParseStreamResponse u chunk =
        .error .eof) := by
  refine ⟨?_, ?_, ?_, ?_⟩
  · intro parse s pre ev heq hne hsent
    exact runStream_sentinel_aux parse ev hne hsent pre.length s pre le_rfl heq
  · intro u chunk h
    simp [openAIParseStreamResponse, h]
  · intro u chunk c cs hne hnd hu hfin
    simp [openAIParseStreamResponse, hne, hnd, hu, hfin]
  · intro u chunk ev hne hnd hu hety
    simp [anthropicParseStreamResponse, hne, hnd, hu, hety]

/-- Witness for C6: a stream whose second and last event is the literal
"[DONE]" sentinel ends with the end-of-stream signal. -/
theorem stream_completion_sentinel_eof_witness :
    doneTerminatedStream.events = [⟨"m", "A"⟩] ++ [⟨"m", "[DONE]"⟩] ∧
    openAIParseStreamResponse demoUnmarshal "[DONE]" = .error .eof ∧
    (runStream (openAIParseStreamResponse demoUnmarshal)
        doneTerminatedStream).2 = .endOfStream := by
  refine ⟨rfl, by decide, ?_⟩
  exact stream_completion_sentinel_eof.1
    (openAIParseStreamResponse demoUnmarshal) doneTerminatedStream
    [⟨"m", "A"⟩] ⟨"m", "[DONE]"⟩ rfl (by decide) (by decide)

/-- Counterexample to C5: for the chat request with empty message list and
non-empty prompt "hi", the Ali and Google chat conversions encode zero
messages — not the one synthesized user message the claim requires of every
adaptor. -/
theorem ali_google_prompt_fallback_missing_cex :
    (aliConvertChatRequest promptOnlyRequest).inputMessages = [] ∧
    googleChatContents promptOnlyRequest = [] := by
  constructor <;> decide

/-- C5 (amended): for every chat request with a non-empty free-text prompt,
an empty message list, and no (non-empty) system-prompt option, the
OpenAI-protocol conversion's `normalizeMessages` encodes exactly one
message with user role and content equal to the prompt; the Ali chat
conversion encodes the request's message list as-is and the Google chat
conversion encodes only the non-system messages of that list — both ignore
the prompt fallback, so they encode zero messages for such a request. -/
theorem chat_prompt_fallback_amended :
    (∀ (request : ChatRequest),
      request.messages = [] → request.prompt ≠ "" →
      optionsString request.options "system_prompt" = "" →
      normalizeMessages request = [⟨"user", .str request.prompt⟩]) ∧
    (∀ (request : ChatRequest),
      (aliConvertChatRequest request).inputMessages = request.messages) ∧
    (∀ (request : ChatRequest),
      request.messages = [] → googleChatContents request = []) := by
  refine ⟨?_, ?_, ?_⟩
  · intro request hmsg hprompt hsys
    simp [normalizeMessages, hmsg, hprompt, hsys]
  · intro request
    rfl
  · intro request hmsg
    simp [googleChatContents, hmsg]

/-- Witness for C5 (amended): at the prompt-only request, `normalizeMessages`
synthesizes exactly the single user message "hi" while Ali and Google encode
no message. -/
theorem chat_prompt_fallback_amended_witness :
    promptOnlyRequest.messages = [] ∧
    promptOnlyRequest.prompt ≠ "" ∧
    optionsString promptOnlyRequest.options "system_prompt" = "" ∧
    normalizeMessages promptOnlyRequest = [⟨"user", .str "hi"⟩] := by
  refine ⟨rfl, by decide, rfl, ?_⟩
  exact chat_prompt_fallback_amended.1 promptOnlyRequest rfl (by decide) rfl

/-- C9: `GoogleAdaptor.PrepareStreamRequest` writes `"X-Stream" = "true"`
into the caller-supplied config's header map before delegating to the chat
conversion; the entry persists in the shared config, so a subsequent
`GetRequestURL` for chat mode on the same config resolves to the
`streamGenerateContent` endpoint (where without the header entry it
resolves to `generateContent`); all other header entries and all other
config fields are unchanged. -/
theorem google_prepare_stream_header_effect (a : GoogleAdaptor)
    (cfg : ProviderConfig) :
    headerGet (googlePrepareStreamConfig cfg).headers "X-Stream" = "true" ∧
    (∀ k, k ≠ "X-Stream" →
      headerGet (googlePrepareStreamConfig cfg).headers k =
        headerGet cfg.headers k) ∧
    (googlePrepareStreamConfig cfg).name = cfg.name ∧
    (googlePrepareStreamConfig cfg).apiKey = cfg.apiKey ∧
    (googlePrepareStreamConfig cfg).model = cfg.model ∧
    (googlePrepareStreamConfig cfg).baseURL = cfg.baseURL ∧
    (googlePrepareStreamConfig cfg).organization = cfg.organization ∧
    (googlePrepareStreamConfig cfg).authHeader = cfg.authHeader ∧
    (googlePrepareStreamConfig cfg).authKeyPrefix = cfg.authKeyPrefix ∧
    (googlePrepareStreamConfig cfg).chatProtocol = cfg.chatProtocol ∧
    googleGetRequestURL a ModeChat (googlePrepareStreamConfig cfg) =
      (if cfg.apiKey ≠ "" then
        googleResolveBase a cfg ++ "/models/" ++ cfg.model ++ ":" ++
          "streamGenerateContent" ++ "?key=" ++ cfg.apiKey
      else
        googleResolveBase a cfg ++ "/models/" ++ cfg.model ++ ":" ++
          "streamGenerateContent") ∧
    (headerGet cfg.headers "X-Stream" ≠ "true" →
      googleGetRequestURL a ModeChat cfg =
        (if cfg.apiKey ≠ "" then
          googleResolveBase a cfg ++ "/models/" ++ cfg.model ++ ":" ++
            "generateContent" ++ "?key=" ++ cfg.apiKey
        else
          googleResolveBase a cfg ++ "/models/" ++ cfg.model ++ ":" ++
            "generateContent")) := by
  refine ⟨?_, ?_, rfl, rfl, rfl, rfl, rfl, rfl, rfl, rfl, ?_, ?_⟩
  · simp [headerGet, headerSet, googlePrepareStreamConfig]
  · intro k hk
    simp only [googlePrepareStreamConfig, headerGet, headerSet]
    rw [List.find?_cons_of_neg]
    simp [Ne.symm hk]
  · simp [googleGetRequestURL, googlePrepareStreamConfig, headerGet, headerSet,
      ModeChat, ModeImage, ModeVideo, googleResolveBase]
  · intro hx
    simp only [headerGet] at hx
    simp [googleGetRequestURL, headerGet, ModeChat, ModeImage, ModeVideo, hx]

/-- Witness for C9: a concrete config whose header map lacks "X-Stream" and
whose other-key lookups survive the preparation step; chat-mode URL
resolution on the prepared config uses the streaming action. -/
theorem google_prepare_stream_header_effect_witness :
    headerGet (googlePrepareStreamConfig
        ⟨"google", "k1", "gemini-pro", "", "", "", "", [("Accept", "sse")], ""⟩).headers
      "X-Stream" = "true" ∧
    headerGet (googlePrepareStreamConfig
        ⟨"google", "k1", "gemini-pro", "", "", "", "", [("Accept", "sse")], ""⟩).headers
      "Accept" = "sse" ∧
    googleGetRequestURL ⟨""⟩ ModeChat
        (googlePrepareStreamConfig
          ⟨"google", "k1", "gemini-pro", "", "", "", "", [("Accept", "sse")], ""⟩) =
      "https://generativelanguage.googleapis.com/v1beta/models/gemini-pro:streamGenerateContent?key=k1" := by
  refine ⟨?_, ?_, ?_⟩
  · exact (google_prepare_stream_header_effect ⟨""⟩
      ⟨"google", "k1", "gemini-pro", "", "", "", "", [("Accept", "sse")], ""⟩).1
  · exact (google_prepare_stream_header_effect ⟨""⟩
      ⟨"google", "k1", "gemini-pro", "", "", "", "", [("Accept", "sse")], ""⟩).2.1
      "Accept" (by decide)
  · refine ((google_prepare_stream_header_effect ⟨""⟩
      ⟨"google", "k1", "gemini-pro", "", "", "", "", [("Accept", "sse")], ""⟩).2.2.2.2.2.2.2.2.2.2.1).trans ?_
    decide

/-- Helper: a string always ends with its own appended suffix. -/
theorem strEndsWith_append (a b : String) : strEndsWith (a ++ b) b = true := by
  rw [strEndsWith, String.data_append]
  rw [List.isSuffixOf_iff_suffix]
  exact List.suffix_append _ _

/-- Helper: stripping trailing slashes from a string whose last character is
not a slash leaves it unchanged. -/
theorem trimRightSlashes_eq_self (s : String)
    (h : s.data.getLast? ≠ some '/') : trimRightSlashes s = s := by
  rw [trimRightSlashes]
  cases hs : s.data.reverse with
  | nil =>
    have hd : s.data = [] := by
      have := congrArg List.reverse hs
      simpa using this
    cases s
    simp_all
  | cons c rest =>
    have hc : ¬ (c = '/') := by
      intro hEq
      apply h
      rw [← List.head?_reverse, hs, hEq]
      rfl
    rw [List.dropWhile_cons_of_neg]
    · rw [← hs, List.reverse_reverse]
    · simp [hc]

/-- Helper: `takeWhile`/`dropWhile` split an append exactly at the boundary
when the predicate holds throughout the left part and fails at the head of
the right part. -/
theorem takeWhile_dropWhile_append (p : Char → Bool) :
    ∀ (a b : List Char), (∀ c ∈ a, p c = true) →
      (∀ c, b.head? = some c → p c = false) →
      (a ++ b).takeWhile p = a ∧ (a ++ b).dropWhile p = b := by
  intro a
  induction a with
  | nil =>
    intro b _ hb
    cases b with
    | nil => exact ⟨rfl, rfl⟩
    | cons c bs =>
      constructor
      · simp [List.takeWhile_cons, hb c rfl]
      · simp [List.dropWhile_cons, hb c rfl]
  | cons x a ih =>
    intro b ha hb
    have hx : p x = true := ha x (by simp)
    obtain ⟨h1, h2⟩ := ih b (fun c hc => ha c (by simp [hc])) hb
    constructor
    · simp [List.takeWhile_cons, hx, h1]
    · simp [List.dropWhile_cons, hx, h2]

/-- Helper: `parseURL` recovers the components of a well-formed https base
URL — non-empty host free of '/', '?' and '#'; path free of '?' and '#',
empty or starting with a slash; hence no query and no fragment. -/
theorem parseURL_https (host path : String) (hh : host ≠ "")
    (hns : ∀ c ∈ host.data, c ≠ '/' ∧ c ≠ '?' ∧ c ≠ '#')
    (hpc : ∀ c ∈ path.data, c ≠ '?' ∧ c ≠ '#')
    (hp : path = "" ∨ path.data.head? = some '/') :
    parseURL ("https://" ++ host ++ path) =
      some ⟨"https", host, path, "", ""⟩ := by
  have hdata : ("https://" ++ host ++ path).data =
      "https://".data ++ (host.data ++ path.data) := by
    simp [String.data_append]
  have hlit : ∀ c ∈ ("https://" : String).data, notHashChar c = true := by
    decide
  have hnohash : ∀ c ∈ ("https://" ++ host ++ path).data,
      notHashChar c = true := by
    intro c hc
    rw [hdata] at hc
    rcases List.mem_append.mp hc with hc | hc
    · exact hlit c hc
    · rcases List.mem_append.mp hc with hc | hc
      · simp [notHashChar, (hns c hc).2.2]
      · simp [notHashChar, (hpc c hc).2]
  have hspanF := takeWhile_dropWhile_append notHashChar
    ("https://" ++ host ++ path).data []
    (by intro c hc; exact hnohash c (by simpa using hc))
    (by intro c hc; cases hc)
  rw [List.append_nil] at hspanF
  have hpre : "https://".data.isPrefixOf
      (("https://" ++ host ++ path).data.takeWhile notHashChar) = true := by
    rw [hspanF.1, hdata, List.isPrefixOf_iff_prefix]
    exact List.prefix_append _ _
  have h8 : ("https://".data).length = 8 := rfl
  have hdrop : (("https://" ++ host ++ path).data.takeWhile notHashChar).drop 8 =
      host.data ++ path.data := by
    rw [hspanF.1, hdata, ← h8, List.drop_left]
  have hspanH := takeWhile_dropWhile_append hostChar host.data path.data
    (by intro c hc; simp [hostChar, (hns c hc).1, (hns c hc).2.1])
    (by
      intro c hc
      rcases hp with hp | hp
      · rw [hp] at hc; exact Option.noConfusion hc
      · rw [hp] at hc
        cases hc
        decide)
  have hspanQ := takeWhile_dropWhile_append notQueryChar path.data []
    (by intro c hc; simp [notQueryChar, (hpc c (by simpa using hc)).1])
    (by intro c hc; cases hc)
  rw [List.append_nil] at hspanQ
  have hne : host.data ≠ [] := by
    intro hEq
    apply hh
    cases host
    exact congrArg String.mk hEq
  rw [parseURL]
  simp only [hpre, if_pos rfl, hdrop, hspanF.2]
  rw [hspanH.1, hspanH.2, hspanQ.1, hspanQ.2]
  have : host.data.isEmpty = false := by
    cases hd : host.data with
    | nil => exact absurd hd hne
    | cons c t => rfl
  simp only [this, Bool.false_eq_true, if_false]
  cases host
  cases path
  rfl

/-- Helper: the last character of a well-formed base URL ending in a
suffix whose last character is 's'. -/
theorem baseURL_getLast (host pre suffix : String)
    (hs : suffix.data.getLast? = some 's') :
    ("https://" ++ host ++ (pre ++ suffix)).data.getLast? = some 's' := by
  rw [String.data_append, String.data_append, String.data_append,
    List.getLast?_append, List.getLast?_append, hs]
  rfl

/-- Helper: `OpenAIAdaptor.GetRequestURL` is idempotent — a well-formed
https base URL with no query or fragment whose path already ends in the
requested mode's suffix is returned unchanged. -/
theorem openAIGetRequestURL_suffix_idempotent (a : OpenAIAdaptor)
    (cfg : ProviderConfig) (host pre suffix mode : String)
    (hmode : openAISuffix mode = .ok suffix)
    (hsuf : suffix = "/chat/completions" ∨ suffix = "/images/generations" ∨
      suffix = "/videos/generations")
    (hh : host ≠ "") (hns : ∀ c ∈ host.data, c ≠ '/' ∧ c ≠ '?' ∧ c ≠ '#')
    (hprec : ∀ c ∈ pre.data, c ≠ '?' ∧ c ≠ '#')
    (hpre : pre = "" ∨ pre.data.head? = some '/')
    (hbase : cfg.baseURL = "https://" ++ host ++ (pre ++ suffix)) :
    openAIGetRequestURL a mode cfg = .ok cfg.baseURL := by
  have hsl : suffix.data.getLast? = some 's' := by
    rcases hsuf with h | h | h <;> rw [h] <;> decide
  have hsh : suffix.data.head? = some '/' := by
    rcases hsuf with h | h | h <;> rw [h] <;> decide
  have hsufc : ∀ c ∈ suffix.data, c ≠ '?' ∧ c ≠ '#' := by
    rcases hsuf with h | h | h <;> rw [h] <;> decide
  have hlast : cfg.baseURL.data.getLast? = some 's' := by
    rw [hbase]
    exact baseURL_getLast host pre suffix hsl
  have htrim : trimRightSlashes cfg.baseURL = cfg.baseURL :=
    trimRightSlashes_eq_self _ (by rw [hlast]; decide)
  have hne0 : cfg.baseURL ≠ "" := by
    intro hEq
    rw [hEq] at hlast
    exact absurd hlast (by decide)
  have hpc : ∀ c ∈ (pre ++ suffix).data, c ≠ '?' ∧ c ≠ '#' := by
    intro c hc
    rw [String.data_append] at hc
    rcases List.mem_append.mp hc with hc | hc
    · exact hprec c hc
    · exact hsufc c hc
  have hpath : (pre ++ suffix) = "" ∨ (pre ++ suffix).data.head? = some '/' := by
    right
    rw [String.data_append, List.head?_append]
    rcases hpre with h | h
    · have : pre.data = [] := by
        cases pre
        simpa using congrArg String.data h
      rw [this]
      simpa using hsh
    · rw [h]
      rfl
  have hparse := parseURL_https host (pre ++ suffix) hh hns hpc hpath
  have htrimp : trimRightSlashes (pre ++ suffix) = pre ++ suffix := by
    apply trimRightSlashes_eq_self
    rw [String.data_append, List.getLast?_append, hsl]
    simp
  rw [openAIGetRequestURL]
  simp only [htrim]
  rw [if_neg hne0]
  rw [if_neg hne0]
  rw [buildOpenAIRequestURL, hmode, hbase, hparse]
  simp only [htrimp, strEndsWith_append, if_pos]
  simp only [urlString, ne_eq, not_true_eq_false, if_neg, ite_false,
    not_false_eq_true]
  rw [show ("https" : String) ++ "://" = "https://" from by decide]

/-- Helper: `AnthropicAdaptor.GetRequestURL` is idempotent — a well-formed
https base URL with no query or fragment whose path already ends in
"/messages" is returned unchanged. -/
theorem anthropicGetRequestURL_suffix_idempotent (a : AnthropicAdaptor)
    (cfg : ProviderConfig) (host pre : String)
    (hh : host ≠ "") (hns : ∀ c ∈ host.data, c ≠ '/' ∧ c ≠ '?' ∧ c ≠ '#')
    (hprec : ∀ c ∈ pre.data, c ≠ '?' ∧ c ≠ '#')
    (hpre : pre = "" ∨ pre.data.head? = some '/')
    (hbase : cfg.baseURL = "https://" ++ host ++ (pre ++ "/messages")) :
    anthropicGetRequestURL a ModeChat cfg = .ok cfg.baseURL := by
  have hlast : cfg.baseURL.data.getLast? = some 's' := by
    rw [hbase]
    exact baseURL_getLast host pre "/messages" (by decide)
  have htrim : trimRightSlashes cfg.baseURL = cfg.baseURL :=
    trimRightSlashes_eq_self _ (by rw [hlast]; decide)
  have hne0 : cfg.baseURL ≠ "" := by
    intro hEq
    rw [hEq] at hlast
    exact absurd hlast (by decide)
  have hmsgc : ∀ c ∈ ("/messages" : String).data, c ≠ '?' ∧ c ≠ '#' := by
    decide
  have hpc : ∀ c ∈ (pre ++ "/messages").data, c ≠ '?' ∧ c ≠ '#' := by
    intro c hc
    rw [String.data_append] at hc
    rcases List.mem_append.mp hc with hc | hc
    · exact hprec c hc
    · exact hmsgc c hc
  have hpath : (pre ++ "/messages") = "" ∨
      (pre ++ "/messages").data.head? = some '/' := by
    right
    rw [String.data_append, List.head?_append]
    rcases hpre with h | h
    · have : pre.data = [] := by
        cases pre
        simpa using congrArg String.data h
      rw [this]
      decide
    · rw [h]
      rfl
  have hparse := parseURL_https host (pre ++ "/messages") hh hns hpc hpath
  have htrimp : trimRightSlashes (pre ++ "/messages") = pre ++ "/messages" := by
    apply trimRightSlashes_eq_self
    rw [String.data_append, List.getLast?_append]
    rw [show ("/messages" : String).data.getLast? = some 's' from by decide]
    simp
  rw [anthropicGetRequestURL]
  rw [if_neg (by simp [ModeChat])]
  simp only [htrim]
  rw [if_neg hne0]
  rw [if_neg hne0]
  rw [hbase, hparse]
  simp only [htrimp, strEndsWith_append, not_true, if_neg, ite_false]
  simp only [urlString, ne_eq, not_true_eq_false, if_neg, ite_false,
    not_false_eq_true]
  rw [show ("https" : String) ++ "://" = "https://" from by decide]

/-- Counterexample to C4: the Ali adaptor's chat URL resolution is not
idempotent — a base URL already ending in the chat path suffix gets the
suffix appended again instead of being returned unchanged. -/
theorem ali_url_suffix_duplicated_cex :
    aliGetRequestURL ⟨""⟩ ModeChat aliDupConfig =
      .ok "https://dashscope.aliyuncs.com/compatible-mode/v1/chat/completions/compatible-mode/v1/chat/completions" ∧
    aliGetRequestURL ⟨""⟩ ModeChat aliDupConfig ≠ .ok aliDupConfig.baseURL := by
  constructor <;> decide

/-- C4 (amended): with an empty base URL every cited adaptor resolves to
its documented default endpoint (OpenAI per mode, Anthropic chat, Ali
chat); the OpenAI and Anthropic adaptors are idempotent — a well-formed
https base URL whose path already ends in the mode suffix is returned
unchanged — but the Ali adaptor appends its fixed chat path
unconditionally, so a base URL already ending in that suffix has it
duplicated rather than returned unchanged. -/
theorem resolve_url_default_and_idempotence_amended :
    (∀ (cfg : ProviderConfig), cfg.baseURL = "" →
      openAIGetRequestURL ⟨""⟩ ModeChat cfg =
        .ok "https://api.openai.com/v1/chat/completions" ∧
      openAIGetRequestURL ⟨""⟩ ModeImage cfg =
        .ok "https://api.openai.com/v1/images/generations" ∧
      openAIGetRequestURL ⟨""⟩ ModeVideo cfg =
        .ok "https://api.openai.com/v1/videos/generations" ∧
      anthropicGetRequestURL ⟨""⟩ ModeChat cfg =
        .ok "https://api.anthropic.com/v1/messages" ∧
      aliGetRequestURL ⟨""⟩ ModeChat cfg =
        .ok "https://dashscope.aliyuncs.com/compatible-mode/v1/chat/completions") ∧
    (∀ (a : OpenAIAdaptor) (cfg : ProviderConfig)
        (host pre suffix mode : String),
      openAISuffix mode = .ok suffix →
      (suffix = "/chat/completions" ∨ suffix = "/images/generations" ∨
        suffix = "/videos/generations") →
      host ≠ "" → (∀ c ∈ host.data, c ≠ '/' ∧ c ≠ '?' ∧ c ≠ '#') →
      (∀ c ∈ pre.data, c ≠ '?' ∧ c ≠ '#') →
      (pre = "" ∨ pre.data.head? = some '/') →
      cfg.baseURL = "https://" ++ host ++ (pre ++ suffix) →
      openAIGetRequestURL a mode cfg = .ok cfg.baseURL) ∧
    (∀ (a : AnthropicAdaptor) (cfg : ProviderConfig) (host pre : String),
      host ≠ "" → (∀ c ∈ host.data, c ≠ '/' ∧ c ≠ '?' ∧ c ≠ '#') →
      (∀ c ∈ pre.data, c ≠ '?' ∧ c ≠ '#') →
      (pre = "" ∨ pre.data.head? = some '/') →
      cfg.baseURL = "https://" ++ host ++ (pre ++ "/messages") →
      anthropicGetRequestURL a ModeChat cfg = .ok cfg.baseURL) ∧
    (∀ (a : AliAdaptor) (cfg : ProviderConfig),
      strEndsWith cfg.baseURL "/compatible-mode/v1/chat/completions" = true →
      aliGetRequestURL a ModeChat cfg =
        .ok (cfg.baseURL ++ "/compatible-mode/v1/chat/completions") ∧
      aliGetRequestURL a ModeChat cfg ≠ .ok cfg.baseURL) := by
  refine ⟨?_, ?_, ?_, ?_⟩
  · intro cfg h
    refine ⟨?_, ?_, ?_, ?_, ?_⟩ <;>
      (first
        | (simp only [openAIGetRequestURL, h]; decide)
        | (simp only [anthropicGetRequestURL, h]; decide)
        | (simp only [aliGetRequestURL, h, ModeChat, reduceIte]; decide))
  · intro a cfg host pre suffix mode hmode hsuf hh hns hprec hpre hbase
    exact openAIGetRequestURL_suffix_idempotent a cfg host pre suffix mode
      hmode hsuf hh hns hprec hpre hbase
  · intro a cfg host pre hh hns hprec hpre hbase
    exact anthropicGetRequestURL_suffix_idempotent a cfg host pre
      hh hns hprec hpre hbase
  · intro a cfg hend
    obtain ⟨t, ht⟩ : "/compatible-mode/v1/chat/completions".data <:+
        cfg.baseURL.data := by
      rw [strEndsWith, List.isSuffixOf_iff_suffix] at hend
      exact of_eq_true (eq_true hend)
    have hlast : cfg.baseURL.data.getLast? = some 's' := by
      rw [← ht, List.getLast?_append]
      rw [show ("/compatible-mode/v1/chat/completions" : String).data.getLast? =
        some 's' from by decide]
      simp
    have htrim : trimRightSlashes cfg.baseURL = cfg.baseURL :=
      trimRightSlashes_eq_self _ (by rw [hlast]; decide)
    have hne0 : cfg.baseURL ≠ "" := by
      intro hEq
      rw [hEq] at hlast
      exact absurd hlast (by decide)
    have hmain : aliGetRequestURL a ModeChat cfg =
        .ok (cfg.baseURL ++ "/compatible-mode/v1/chat/completions") := by
      rw [aliGetRequestURL]
      simp only [htrim]
      rw [if_neg hne0]
      rw [if_pos trivial]
      rw [if_neg hne0]
    refine ⟨hmain, ?_⟩
    rw [hmain]
    intro hEq
    have hinj : cfg.baseURL ++ "/compatible-mode/v1/chat/completions" =
        cfg.baseURL := by
      injection hEq
    have hlen := congrArg (fun s => s.data.length) hinj
    simp only [String.data_append, List.length_append] at hlen
    rw [show (("/compatible-mode/v1/chat/completions" : String).data).length = 36
      from by decide] at hlen
    omega

/-- Witness for C4 (amended): the OpenAI and Anthropic adaptors return
already-suffixed base URLs unchanged, the OpenAI default endpoint is
produced from an empty base URL, and the Ali adaptor appends its chat
suffix onto a base URL that already ends in it. -/
theorem resolve_url_default_and_idempotence_amended_witness :
    openAIGetRequestURL ⟨""⟩ ModeChat
        ⟨"", "", "", "https://api.openai.com/v1/chat/completions", "", "",
          "", [], ""⟩ =
      .ok "https://api.openai.com/v1/chat/completions" ∧
    anthropicGetRequestURL ⟨""⟩ ModeChat
        ⟨"", "", "", "https://api.anthropic.com/v1/messages", "", "", "",
          [], ""⟩ =
      .ok "https://api.anthropic.com/v1/messages" ∧
    openAIGetRequestURL ⟨""⟩ ModeChat ⟨"", "", "", "", "", "", "", [], ""⟩ =
      .ok "https://api.openai.com/v1/chat/completions" ∧
    aliGetRequestURL ⟨""⟩ ModeChat aliDupConfig =
      .ok (aliDupConfig.baseURL ++ "/compatible-mode/v1/chat/completions") := by
  refine ⟨?_, ?_, ?_, ?_⟩
  · exact resolve_url_default_and_idempotence_amended.2.1 ⟨""⟩
      ⟨"", "", "", "https://api.openai.com/v1/chat/completions", "", "", "",
        [], ""⟩
      "api.openai.com" "/v1" "/chat/completions" ModeChat
      (by decide) (Or.inl rfl) (by decide) (by decide) (by decide)
      (Or.inr (by decide)) (by decide)
  · exact resolve_url_default_and_idempotence_amended.2.2.1 ⟨""⟩
      ⟨"", "", "", "https://api.anthropic.com/v1/messages", "", "", "",
        [], ""⟩
      "api.anthropic.com" "/v1"
      (by decide) (by decide) (by decide) (Or.inr (by decide)) (by decide)
  · exact (resolve_url_default_and_idempotence_amended.1
      ⟨"", "", "", "", "", "", "", [], ""⟩ rfl).1
  · exact (resolve_url_default_and_idempotence_amended.2.2.2 ⟨""⟩
      aliDupConfig (by decide)).1

end Omnigo
